import Mathlib

/-!
Verification development for the TerryOptImg image-optimization pipeline.

The definitions below are a shallow embedding of the repository's core:

* `ImageOptimizer.process_file` (src/image_optimizer.py, lines 64-170),
  together with its helpers `process_svg` (172-201) and
  `optimize_external` (203-214).  Python `float` arithmetic in the resize
  step (`ratio = max_size / max(w, h)`; `int(w * ratio)`) is embedded with
  exact rational arithmetic over `ℚ`, with Python `int()` truncation of a
  non-negative value embedded as `Nat.floor`.
* `WorkerThread.run` (src/qt_image_optimizer.py, lines 105-145), the Qt
  batch coordinator, embedded as a deterministic function of the point in
  time at which the cancellation flag becomes visible (the flag is set at
  most once and never cleared during a run, so the sequence of flag reads
  is monotone; `cancelAt = some t` means the t-th read is the first that
  returns true).
* The Tk GUI's savings accumulator `_check_queue`
  (src/image_optimizer_gui.py, lines 368-375), embedded as a fold over the
  sequence of delivered results.

The filesystem, the PIL imaging library and the external tools are
modelled as an explicit environment `Env`: file existence, byte sizes,
decoding and directory creation are environment-supplied, and each write
the pipeline performs is recorded as an `Effect`.
-/

namespace TerryOptImg

/-- A filesystem path, parsed as `pathlib.Path` exposes it: parent
directory components, stem (`base`) and final suffix without the dot
(`ext`; `""` means no suffix). -/
structure FPath where
  dir : List String
  base : String
  ext : String
deriving DecidableEq, Repr

/-- `Path.name`: stem plus suffix. -/
def FPath.name (p : FPath) : String :=
  p.base ++ (if p.ext = "" then "" else "." ++ p.ext)

/-- `str(path)`: components joined by `/`. -/
def FPath.str (p : FPath) : String :=
  String.intercalate "/" (p.dir ++ [p.name])

/-- Python `str.lower()` (ASCII case folding, which is all the pipeline
compares). -/
def strLower (s : String) : String := ⟨s.data.map Char.toLower⟩

/-- PIL pixel modes that matter to the pipeline. -/
inductive PMode | rgba | la | p | rgb | l | other
deriving DecidableEq, Repr

/-- A decoded image: dimensions, pixel mode, and whether `img.info`
carries EXIF data. -/
structure Img where
  w : Nat
  h : Nat
  mode : PMode
  hasExif : Bool
deriving DecidableEq, Repr

/-- PIL resampling filters used by the resize branch. -/
inductive Resample | lanczos | bicubic
deriving DecidableEq, Repr

/-- The resize step (image_optimizer.py lines 126-133), in exact rational
arithmetic.  Python: `if self.max_size:` (truthiness, so `None` and `0`
both skip), `if max(w, h) > self.max_size:`, `ratio = max_size / max(w, h)`,
`new_size = (int(w * ratio), int(h * ratio))` (truncation of a
non-negative float, i.e. floor), and
`resample = LANCZOS if ratio < 1 else BICUBIC`.
Returns the (possibly unchanged) dimensions and the filter used, if any. -/
def resizeApply (maxSize : Option Nat) (w h : Nat) : (Nat × Nat) × Option Resample :=
  match maxSize with
  | none => ((w, h), none)
  | some b =>
    if b = 0 then ((w, h), none)
    else if b < max w h then
      let d : Nat := max w h
      let ratio : ℚ := (b : ℚ) / (d : ℚ)
      let nw := ⌊(w : ℚ) * ratio⌋₊
      let nh := ⌊(h : ℚ) * ratio⌋₊
      ((nw, nh), some (if ratio < 1 then Resample.lanczos else Resample.bicubic))
    else ((w, h), none)

/-- Modelled from the spec's words (spec.md §4.1 step 7): new size =
`(round(width*ratio), round(height*ratio))` with
`ratio = bound / max(width, height)`.  Kept separate from `resizeApply`
(the embedding of the source) so the two can be compared. -/
def resizeSpecRound (b w h : Nat) : ℤ × ℤ :=
  (round ((w : ℚ) * ((b : ℚ) / ((max w h : Nat) : ℚ))),
   round ((h : ℚ) * ((b : ℚ) / ((max w h : Nat) : ℚ))))

/-- The per-run optimizer configuration (`ImageOptimizer.__init__`).
`target_format` stores the already-lowercased value (the constructor
applies `.lower()`). `output_dir` is stored as path components. -/
structure Cfg where
  output_dir : Option (List String)
  max_size : Option Nat
  target_format : Option String
  overwrite : Bool
  quality : Nat
  keep_metadata : Bool
deriving DecidableEq, Repr

/-- Arguments of one `img.save(...)` call: the target path, the `quality`
kwarg (if passed), the `optimize` kwarg, the `method` kwarg (if passed),
whether an `exif` kwarg was attached, and whether `img.convert(RGB)`
was applied before saving. -/
structure SaveCall where
  target : FPath
  qualityArg : Option Nat
  optimizeFlag : Bool
  methodArg : Option Nat
  exifAttached : Bool
  convertedRGB : Bool
deriving DecidableEq, Repr

/-- Filesystem-mutating actions the pipeline performs, in order. -/
inductive Effect
  | mkdirE (d : List String)
  | saveE (c : SaveCall)
  | copyE (src dst : FPath)
  | toolE (tool : String) (target : FPath)
deriving DecidableEq, Repr

/-- The result dict built by `process_file` (path, compression_ratio
omitted: the former is the input echoed back, the latter is derived). -/
structure RFields where
  success : Bool
  original_size : Nat
  new_size : Nat
  message : String
deriving DecidableEq, Repr

/-- The environment: filesystem state, decoding, and external-tool
availability.  Fallible operations (`mkdir`, `img.save`, `shutil.copy2`)
report failure via an `Option String` error; `sizeAfter` is the byte size
observed by the final `stat` (after any external tool ran). -/
structure Env where
  filePresent : FPath → Bool
  size : FPath → Nat
  sizeAfter : FPath → Nat
  decode : FPath → Except String Img
  transpose : Img → Img
  mkdirErr : List String → Option String
  saveErr : FPath → Option String
  copyErr : FPath → FPath → Option String
  hasJpegoptim : Bool
  hasPngquant : Bool
  hasSvgo : Bool
  hasScour : Bool

/-- A failure result: the `except` clause of `process_file` (lines 168-170)
formats the caught exception as `"Error {file_path.name}: {str(e)}"`,
keeping the `original_size` recorded before the failure. -/
def failR (p : FPath) (orig : Nat) (e : String) : RFields :=
  ⟨false, orig, 0, "Error " ++ p.name ++ ": " ++ e⟩

/-- Mode canonicalization at load (lines 94-95): palette or alpha-bearing
modes are converted to RGBA. -/
def modeNorm (i : Img) : Img :=
  match i.mode with
  | .rgba | .la | .p => { i with mode := .rgba }
  | _ => i

/-- Output path before any format-driven suffix change (lines 100-113):
explicit output directory, else in place under `overwrite`, else a
sibling `optimized/` directory. -/
def resolveOut0 (cfg : Cfg) (p : FPath) : FPath :=
  match cfg.output_dir with
  | some od => ⟨od, p.base, p.ext⟩
  | none => if cfg.overwrite then p else ⟨p.dir ++ ["optimized"], p.base, p.ext⟩

/-- The directory the raster branch creates, if any (lines 103 and 111). -/
def mkdirNeeded (cfg : Cfg) (p : FPath) : Option (List String) :=
  match cfg.output_dir with
  | some od => some od
  | none => if cfg.overwrite then none else some (p.dir ++ ["optimized"])

/-- `save_ext` (line 117): the configured target format, else the input's
lowercased extension. -/
def saveExt (cfg : Cfg) (p : FPath) : String :=
  match cfg.target_format with
  | some t => t
  | none => strLower p.ext

/-- The resolved output path (lines 100-120): `resolveOut0`, with the
suffix replaced by the target format when one is configured. -/
def resolveOut (cfg : Cfg) (p : FPath) : FPath :=
  let o := resolveOut0 cfg p
  match cfg.target_format with
  | some t => { o with ext := t }
  | none => o

/-- `needs_pil_save` (lines 143-145): a full re-encode happens iff a
maximum size is configured (`is not None`), or a target format is
configured that differs from the current extension, or the resolved
output path does not exist and differs from the input path. -/
def needsPilSave (env : Env) (cfg : Cfg) (p : FPath) : Bool :=
  let out := resolveOut cfg p
  cfg.max_size.isSome ||
    (match cfg.target_format with
     | some t => t != strLower p.ext
     | none => false) ||
    (!env.filePresent out && out != p)

/-- The format-specific `img.save` branch (lines 147-156), keyed on
`save_ext`. -/
def mkSaveCall (cfg : Cfg) (se : String) (out : FPath) (exifKw : Bool) : SaveCall :=
  if se = "jpg" ∨ se = "jpeg" then ⟨out, some cfg.quality, true, none, exifKw, true⟩
  else if se = "png" then ⟨out, none, true, none, exifKw, false⟩
  else if se = "webp" then ⟨out, some cfg.quality, false, some 6, exifKw, false⟩
  else ⟨out, none, false, none, exifKw, false⟩

/-- `optimize_external` (lines 203-214): best-effort dispatch to
`jpegoptim` / `pngquant` by the output suffix, when available. -/
def optimizeExternal (env : Env) (out : FPath) : List Effect :=
  if (strLower out.ext = "jpg" ∨ strLower out.ext = "jpeg") ∧ env.hasJpegoptim then
    [.toolE "jpegoptim" out]
  else if strLower out.ext = "png" ∧ env.hasPngquant then [.toolE "pngquant" out]
  else []

/-- Tail of the raster pipeline after a successful write decision
(lines 160-166): external post-process on the existing output, then the
success result with `new_size` read back from disk. -/
def rasterFinish (env : Env) (out : FPath) (orig : Nat) (efs : List Effect) :
    RFields × List Effect :=
  let ns := env.sizeAfter out
  (⟨true, orig, ns, "Processed (" ++ toString orig ++ " -> " ++ toString ns ++ ")"⟩,
   efs ++ optimizeExternal env out)

/-- The write decision (lines 143-158): re-encode when `needs_pil_save`,
else byte-for-byte copy when the output path differs from the input,
else no write.  `efDir` holds the directory-creation effects. -/
def rasterWrite (env : Env) (cfg : Cfg) (p : FPath) (orig : Nat) (exifKw : Bool)
    (efDir : List Effect) : RFields × List Effect :=
  if needsPilSave env cfg p then
    match env.saveErr (resolveOut cfg p) with
    | some e => (failR p orig e, efDir)
    | none =>
      rasterFinish env (resolveOut cfg p) orig
        (efDir ++ [.saveE (mkSaveCall cfg (saveExt cfg p) (resolveOut cfg p) exifKw)])
  else if resolveOut cfg p = p then rasterFinish env (resolveOut cfg p) orig efDir
  else
    match env.copyErr p (resolveOut cfg p) with
    | some e => (failR p orig e, efDir)
    | none =>
      rasterFinish env (resolveOut cfg p) orig (efDir ++ [.copyE p (resolveOut cfg p)])

/-- The `exif` save-kwarg flag (lines 140-141), read from the image
after mode canonicalization, auto-orient and resize. -/
def exifKwOf (env : Env) (cfg : Cfg) (img0 : Img) : Bool :=
  let img2 := env.transpose (modeNorm img0)
  let rz := resizeApply cfg.max_size img2.w img2.h
  let img3 : Img := { img2 with w := rz.1.1, h := rz.1.2 }
  cfg.keep_metadata && img3.hasExif

/-- The raster pipeline after a successful decode (lines 99-166):
mkdir, path/format resolution, EXIF auto-orient, resize, write decision,
external post-process, result. -/
def processRaster (env : Env) (cfg : Cfg) (p : FPath) (orig : Nat) (img0 : Img) :
    RFields × List Effect :=
  match mkdirNeeded cfg p with
  | none => rasterWrite env cfg p orig (exifKwOf env cfg img0) []
  | some d =>
    match env.mkdirErr d with
    | some e => (failR p orig e, [])
    | none => rasterWrite env cfg p orig (exifKwOf env cfg img0) [.mkdirE d]

/-- Tail of the SVG branch (lines 187-201): at most one vector tool
(`svgo` preferred, else `scour`), then the always-successful result,
with `new_size = 0` when the output file does not exist. -/
def svgFinish (env : Env) (p out : FPath) (orig : Nat) (efs : List Effect) :
    RFields × List Effect :=
  let efT :=
    if env.hasSvgo then [Effect.toolE "svgo" out]
    else if env.hasScour then [Effect.toolE "scour" out]
    else []
  let presentNow := (out != p) || env.filePresent out
  let ns := if presentNow then env.sizeAfter out else 0
  (⟨true, orig, ns, "SVG Optimized"⟩, efs ++ efT)

/-- The SVG copy step (lines 183-185): copy when the output path differs
from the input. -/
def svgCopy (env : Env) (p out : FPath) (orig : Nat) (ef0 : List Effect) :
    RFields × List Effect :=
  if out = p then svgFinish env p out orig ef0
  else
    match env.copyErr p out with
    | some e => (failR p orig e, ef0)
    | none => svgFinish env p out orig (ef0 ++ [.copyE p out])

/-- `process_svg` (lines 172-201): output-path resolution (note: unlike
the raster branch, no mkdir for an explicit output directory), copy,
vector tool, result. -/
def processSvg (env : Env) (cfg : Cfg) (p : FPath) (orig : Nat) : RFields × List Effect :=
  match cfg.output_dir with
  | some od => svgCopy env p ⟨od, p.base, p.ext⟩ orig []
  | none =>
    if cfg.overwrite then svgCopy env p p orig []
    else
      match env.mkdirErr (p.dir ++ ["optimized"]) with
      | some e => (failR p orig e, [])
      | none =>
        svgCopy env p ⟨p.dir ++ ["optimized"], p.base, p.ext⟩ orig
          [.mkdirE (p.dir ++ ["optimized"])]

/-- `process_file` (lines 64-170): the full single-file pipeline.  Every
failure of a fallible step is converted by the enclosing `try/except`
into a `success = false` result; the function itself is total. -/
def processFile (env : Env) (cfg : Cfg) (p : FPath) : RFields × List Effect :=
  if env.filePresent p then
    if strLower p.ext = "svg" then processSvg env cfg p (env.size p)
    else
      match env.decode p with
      | .error e =>
        (failR p (env.size p) ("Cannot load image " ++ p.name ++ ": " ++ e), [])
      | .ok img0 => processRaster env cfg p (env.size p) img0
  else
    (failR p 0 ("File not found: " ++ p.str), [])

/-! ## The Qt batch coordinator (`WorkerThread.run`, qt_image_optimizer.py 105-145)

Each file is identified with the `RFields` its `process_file` call
produces (`process_file` is total, see `processFile` above, so the
worker's `except` branch around `future.result()` is unreachable and is
not modelled).  The cancellation flag is set at most once and never
cleared during a run (spec §3, `BatchRun`), so the sequence of values the
worker reads is monotone; `cancelAt = some t` means the flag first reads
true at the t-th read (reads are counted across both loops, in program
order), `none` means it never does. -/

/-- The value of the `self.cancelled` read number `k`. -/
def cRead (cancelAt : Option Nat) (k : Nat) : Bool :=
  match cancelAt with
  | none => false
  | some t => t ≤ k

/-- Signals a `WorkerThread` emits. -/
inductive QtEvent
  | progressE (completed total : Nat)
  | logE (msg tag : String)
  | savedE (n : Nat)
  | finishedE
deriving DecidableEq, Repr

/-- The bytes a delivered result contributes to the worker's running
`total_saved` (lines 135-139): `original_size - new_size`, counted only
when `success` is true, both sizes are truthy (nonzero) and the delta is
strictly positive. -/
def qtSaveDelta (r : RFields) : Nat :=
  if r.success ∧ r.original_size ≠ 0 ∧ r.new_size ≠ 0 ∧ r.new_size < r.original_size
  then r.original_size - r.new_size else 0

/-- The submit loop (lines 114-118): before each submission the flag is
read; the first true read logs a cancellation message and stops
submitting.  Returns (submitted prefix, next read index, events). -/
def qtSubmit (cancelAt : Option Nat) : List RFields → Nat → List RFields × Nat × List QtEvent
  | [], k => ([], k, [])
  | r :: rs, k =>
    if cRead cancelAt k then ([], k + 1, [.logE "取消剩余任务" "error"])
    else
      let t := qtSubmit cancelAt rs (k + 1)
      (r :: t.1, t.2.1, t.2.2)

/-- The result-collection loop (lines 121-143): before consuming each
future the flag is read, and a true read breaks out of the loop,
discarding the remaining futures' results.  Otherwise the completed
count is incremented, a progress signal and a log signal are emitted,
and a strictly positive saving is accumulated and signalled.  Returns
(events, results actually delivered, final `total_saved`). -/
def qtCollect (cancelAt : Option Nat) (total : Nat) :
    List RFields → Nat → Nat → Nat → List QtEvent × List RFields × Nat
  | [], _, _, s => ([], [], s)
  | r :: rs, k, c, s =>
    if cRead cancelAt k then ([], [], s)
    else
      let d := qtSaveDelta r
      let evHere :=
        [QtEvent.progressE (c + 1) total,
         QtEvent.logE r.message (if r.success then "success" else "error")] ++
          (if d ≠ 0 then [QtEvent.savedE d] else [])
      let t := qtCollect cancelAt total rs (k + 1) (c + 1) (s + d)
      (evHere ++ t.1, r :: t.2.1, t.2.2)

/-- Outcome of one `WorkerThread.run`. -/
structure QtRunOut where
  events : List QtEvent
  submitted : List RFields
  delivered : List RFields
  saved : Nat
deriving DecidableEq, Repr

/-- `WorkerThread.run` (lines 105-145): submit loop, collection loop,
terminal `finished` signal (always emitted). -/
def qtRun (cancelAt : Option Nat) (files : List RFields) : QtRunOut :=
  let sub := qtSubmit cancelAt files 0
  let col := qtCollect cancelAt files.length sub.1 sub.2.1 0 0
  ⟨sub.2.2 ++ col.1 ++ [.finishedE], sub.1, col.2.1, col.2.2⟩

/-- The progress updates among a list of events, in order. -/
def progressOf (evs : List QtEvent) : List (Nat × Nat) :=
  evs.filterMap fun e =>
    match e with
    | .progressE c t => some (c, t)
    | _ => none

/-! ## The Tk GUI's savings accumulator (`_check_queue`, image_optimizer_gui.py 368-375)

For every delivered result dict with `success` truthy it adds
`original_size - new_size` to `session_saved_size`, with no positivity
check. -/

/-- `session_saved_size` after consuming the given results in order. -/
def tkAccum (rs : List RFields) : Int :=
  rs.foldl
    (fun acc r =>
      if r.success then acc + ((r.original_size : Int) - (r.new_size : Int)) else acc)
    0

/-! ## Concrete fixtures used by counterexamples and witnesses -/

/-- A raster input file `d/a.jpg`. -/
def pA : FPath := ⟨["d"], "a", "jpg"⟩

/-- A benign environment: every path exists with 100 bytes, decodes to a
10x10 RGB image without EXIF, all fallible operations succeed, no
external tool is installed. -/
def envBase : Env where
  filePresent := fun _ => true
  size := fun _ => 100
  sizeAfter := fun _ => 80
  decode := fun _ => .ok ⟨10, 10, PMode.rgb, false⟩
  transpose := id
  mkdirErr := fun _ => none
  saveErr := fun _ => none
  copyErr := fun _ _ => none
  hasJpegoptim := false
  hasPngquant := false
  hasSvgo := false
  hasScour := false

/-- `envBase` with no file present on disk. -/
def envAbsent : Env := { envBase with filePresent := fun _ => false }

/-- `envBase` with `jpegoptim` installed. -/
def envJpegoptim : Env := { envBase with hasJpegoptim := true }

/-- Default configuration (no output dir, no bound, no format,
no overwrite). -/
def cfg0 : Cfg := ⟨none, none, none, false, 85, false⟩

/-- Overwrite-in-place with a (large) maximum-dimension bound. -/
def cfgBound : Cfg := ⟨none, some 1000, none, true, 85, false⟩

/-- Overwrite-in-place, no bound, no format, no output dir. -/
def cfgInPlace : Cfg := ⟨none, none, none, true, 85, false⟩

/-- A delivered result: 10 -> 5 bytes, success. -/
def rA : RFields := ⟨true, 10, 5, "m1"⟩

/-- A delivered result: 20 -> 5 bytes, success. -/
def rB : RFields := ⟨true, 20, 5, "m2"⟩

/-- A delivered result whose output is larger than its input. -/
def rGrew : RFields := ⟨true, 10, 20, "grew"⟩

/-! ## Resize arithmetic -/

/-- Python `int(w * ratio)` with `ratio = b / d`, in exact rational
arithmetic, is natural division `w * b / d`. -/
theorem floor_mul_ratio (w b d : ℕ) :
    ⌊(w : ℚ) * ((b : ℚ) / (d : ℚ))⌋₊ = w * b / d := by
  rw [show (w : ℚ) * ((b : ℚ) / (d : ℚ)) = ((w * b : ℕ) : ℚ) / (d : ℚ) by
    push_cast; ring]
  exact Nat.floor_div_eq_div _ _

/-- When the bound is positive and exceeded, the resize branch fires,
computes the floor-divided dimensions, and selects LANCZOS. -/
theorem resizeApply_of_lt (b w h : ℕ) (hb : b ≠ 0) (hlt : b < max w h) :
    resizeApply (some b) w h =
      ((w * b / max w h, h * b / max w h), some Resample.lanczos) := by
  have hd : (0 : ℕ) < max w h := lt_of_le_of_lt (Nat.zero_le b) hlt
  have hratio : (b : ℚ) / ((max w h : ℕ) : ℚ) < 1 := by
    rw [div_lt_one (by exact_mod_cast hd)]
    exact_mod_cast hlt
  simp only [resizeApply, if_neg hb, if_pos hlt, if_pos hratio,
    floor_mul_ratio]

/-- When the larger side does not exceed the bound (or the bound is 0,
which Python truthiness treats as unset), no resize happens. -/
theorem resizeApply_of_le (b w h : ℕ) (hle : ¬ b < max w h) :
    resizeApply (some b) w h = ((w, h), none) := by
  by_cases hb : b = 0 <;> simp [resizeApply, hb, hle]

/-- After a resize with bound `b < max w h`, the larger output dimension
is exactly `b` (exact arithmetic: `d * b / d = b`). -/
theorem resize_max_dim (b w h : ℕ) (hlt : b < max w h) :
    max (w * b / max w h) (h * b / max w h) = b := by
  rcases le_total h w with hc | hc
  · have hw : max w h = w := max_eq_left hc
    have hw0 : 0 < w := hw ▸ lt_of_le_of_lt (Nat.zero_le b) hlt
    rw [hw, Nat.mul_div_cancel_left b hw0]
    have hhb : h * b / w ≤ b := by
      calc h * b / w ≤ w * b / w := Nat.div_le_div_right (Nat.mul_le_mul_right b hc)
      _ = b := Nat.mul_div_cancel_left b hw0
    exact max_eq_left hhb
  · have hh : max w h = h := max_eq_right hc
    have hh0 : 0 < h := hh ▸ lt_of_le_of_lt (Nat.zero_le b) hlt
    rw [hh, Nat.mul_div_cancel_left b hh0]
    have hwb : w * b / h ≤ b := by
      calc w * b / h ≤ h * b / h := Nat.div_le_div_right (Nat.mul_le_mul_right b hc)
      _ = b := Nat.mul_div_cancel_left b hh0
    exact max_eq_right hwb

/-- C1 counterexample: for a 3x5 image with bound 3 the code computes
`int(3 * 3/5) = int(1.8) = 1` for the width (Python `int()` truncates),
while the claimed formula `round(width * ratio)` gives `round(1.8) = 2`.
So `process_file` does not resize to
`(round(width*ratio), round(height*ratio))`. -/
theorem C1_counterexample :
    (resizeApply (some 3) 3 5).1 = (1, 3) ∧
    resizeSpecRound 3 3 5 = (2, 3) ∧ ((1 : ℤ) ≠ 2) := by
  refine ⟨?_, ?_, by decide⟩
  · rw [resizeApply_of_lt 3 3 5 (by decide) (by decide)]
    norm_num
  · unfold resizeSpecRound
    norm_num [round_eq]

/-- C1 (amended): for a positive configured bound `b`, no resize occurs
when `max(w, h) <= b`; when `max(w, h) > b` the image is resized to
`(int(w*ratio), int(h*ratio))` — truncation, not rounding — which in
exact arithmetic is `(w*b / max(w,h), h*b / max(w,h))`, and the output's
larger dimension then equals `b` exactly, so aspect ratio is preserved
within the truncation. -/
theorem C1_resize (b w h : ℕ) (hb : 0 < b) :
    (max w h ≤ b → resizeApply (some b) w h = ((w, h), none)) ∧
    (b < max w h →
      (resizeApply (some b) w h).1 = (w * b / max w h, h * b / max w h) ∧
      max (w * b / max w h) (h * b / max w h) = b) := by
  constructor
  · intro hle
    exact resizeApply_of_le b w h (not_lt.mpr hle)
  · intro hlt
    rw [resizeApply_of_lt b w h (Nat.pos_iff_ne_zero.mp hb) hlt]
    exact ⟨rfl, resize_max_dim b w h hlt⟩

/-- C1 witness: the theorem evaluated at `b = 3`, `w = 3`, `h = 5`. -/
theorem C1_resize_witness :
    (0 < 3) ∧ ((3 < max 3 5 →
      (resizeApply (some 3) 3 5).1 = (3 * 3 / max 3 5, 5 * 3 / max 3 5) ∧
      max (3 * 3 / max 3 5) (5 * 3 / max 3 5) = 3)) :=
  ⟨by decide, (C1_resize 3 3 5 (by decide)).2⟩

/-- C10: whatever the configuration and image dimensions, the resize
step never selects the BICUBIC (upscaling) filter: whenever the resize
branch fires, `ratio = b / max(w, h) < 1` because the guard requires
`max(w, h) > b`, so LANCZOS is always chosen. -/
theorem C10_bicubic_unreachable (ms : Option Nat) (w h : Nat) :
    (resizeApply ms w h).2 ≠ some Resample.bicubic := by
  match ms with
  | none => simp [resizeApply]
  | some b =>
    by_cases hlt : b < max w h
    · by_cases hb : b = 0
      · simp [resizeApply, hb]
      · rw [resizeApply_of_lt b w h hb hlt]
        simp
    · rw [resizeApply_of_le b w h hlt]
      simp

/-- C10 witness: at bound 3 on a 3x5 image the filter actually chosen is
LANCZOS, not BICUBIC. -/
theorem C10_witness :
    (resizeApply (some 3) 3 5).2 ≠ some Resample.bicubic :=
  C10_bicubic_unreachable (some 3) 3 5

/-! ## Error containment of the single-file pipeline -/

/-- Every effect `optimize_external` produces is an external-tool
invocation on the given output path. -/
theorem mem_optimizeExternal (env : Env) (out : FPath) :
    ∀ e ∈ optimizeExternal env out, ∃ t, e = Effect.toolE t out := by
  intro e he
  unfold optimizeExternal at he
  split_ifs at he <;> simp at he <;> exact ⟨_, he⟩

/-- C5: `process_file` never lets a failure escape: the result either has
`success = true`, or has `success = false` with the caught failure
formatted into the message (the `except` handler at lines 168-170). -/
theorem C5_no_throw (env : Env) (cfg : Cfg) (p : FPath) :
    (processFile env cfg p).1.success = true ∨
    ((processFile env cfg p).1.success = false ∧
      ∃ e, (processFile env cfg p).1.message = "Error " ++ p.name ++ ": " ++ e) := by
  unfold processFile processSvg processRaster svgCopy svgFinish rasterWrite rasterFinish
  repeat' split
  all_goals first
    | exact Or.inl rfl
    | exact Or.inr ⟨rfl, _, rfl⟩

/-- C5 witness: the dichotomy evaluated on a concrete run. -/
theorem C5_witness :
    (processFile envBase cfg0 pA).1.success = true ∨
    ((processFile envBase cfg0 pA).1.success = false ∧
      ∃ e, (processFile envBase cfg0 pA).1.message = "Error " ++ pA.name ++ ": " ++ e) :=
  C5_no_throw envBase cfg0 pA

/-- C7 counterexample: for the missing file `d/a.jpg` the returned
message is the wrapped `"Error a.jpg: File not found: d/a.jpg"` (the
`FileNotFoundError` text is re-formatted by the `except` handler), not
exactly `"File not found: d/a.jpg"` as claimed. -/
theorem C7_counterexample :
    (processFile envAbsent cfg0 pA).1.message =
      "Error a.jpg: File not found: d/a.jpg" ∧
    (processFile envAbsent cfg0 pA).1.message ≠ "File not found: d/a.jpg" := by
  constructor
  · decide
  · decide

/-- C7 (amended): for a missing input the result is
`success = false` with message
`"Error <name>: File not found: <path>"` — the handler-wrapped form,
which contains (but does not equal) `"File not found: <path>"`. -/
theorem C7_not_found (env : Env) (cfg : Cfg) (p : FPath)
    (h : env.filePresent p = false) :
    (processFile env cfg p).1 =
      ⟨false, 0, 0, "Error " ++ p.name ++ ": " ++ ("File not found: " ++ p.str)⟩ := by
  simp [processFile, h, failR]

/-- C7 witness: the amended statement at the concrete missing file. -/
theorem C7_not_found_witness :
    envAbsent.filePresent pA = false ∧
    (processFile envAbsent cfg0 pA).1 =
      ⟨false, 0, 0, "Error " ++ pA.name ++ ": " ++ ("File not found: " ++ pA.str)⟩ :=
  ⟨rfl, C7_not_found envAbsent cfg0 pA rfl⟩

/-- C8: with overwrite enabled and no bound, no target format and no
output directory, the resolved output path is the input path, the write
decision is "no write", and the only effects that can touch the file are
external post-processing tools. -/
theorem C8_inplace_noop (env : Env) (cfg : Cfg) (p : FPath)
    (hov : cfg.overwrite = true) (hms : cfg.max_size = none)
    (htf : cfg.target_format = none) (hod : cfg.output_dir = none)
    (hp : env.filePresent p = true) (hsvg : strLower p.ext ≠ "svg")
    (hdec : ∃ i, env.decode p = .ok i) :
    (processFile env cfg p).1.success = true ∧
    ∀ e ∈ (processFile env cfg p).2, ∃ t, e = Effect.toolE t p := by
  obtain ⟨i, hi⟩ := hdec
  have hout : resolveOut cfg p = p := by
    simp [resolveOut, resolveOut0, hod, hov, htf]
  have hneeds : needsPilSave env cfg p = false := by
    simp [needsPilSave, hms, htf, hout]
  have hmk : mkdirNeeded cfg p = none := by
    simp [mkdirNeeded, hod, hov]
  have hred : processFile env cfg p = rasterFinish env p (env.size p) [] := by
    simp [processFile, hp, hsvg, hi, processRaster, hmk, rasterWrite, hneeds, hout]
  rw [hred]
  refine ⟨rfl, ?_⟩
  simpa [rasterFinish] using mem_optimizeExternal env p

/-- C8 witness: overwrite-in-place on `d/a.jpg` with `jpegoptim`
available: success, and every effect is an external-tool run on the
input itself. -/
theorem C8_witness :
    cfgInPlace.overwrite = true ∧
    ((processFile envJpegoptim cfgInPlace pA).1.success = true ∧
      ∀ e ∈ (processFile envJpegoptim cfgInPlace pA).2, ∃ t, e = Effect.toolE t pA) :=
  ⟨rfl, C8_inplace_noop envJpegoptim cfgInPlace pA rfl rfl rfl rfl rfl
    (by decide) ⟨_, rfl⟩⟩

/-! ## The write decision (re-encode / copy / no write) -/

/-- Membership in the effects of `rasterFinish`. -/
theorem mem_rasterFinish (env : Env) (out : FPath) (orig : Nat)
    (efs : List Effect) (e : Effect) :
    e ∈ (rasterFinish env out orig efs).2 ↔
      e ∈ efs ∨ e ∈ optimizeExternal env out := by
  simp [rasterFinish]

/-- Any save call recorded by `rasterWrite` is the one built by
`mkSaveCall` for the resolved output extension and path. -/
theorem save_mem_rasterWrite {env : Env} {cfg : Cfg} {p : FPath} {orig : Nat}
    {exifKw : Bool} {efDir : List Effect} {sc : SaveCall}
    (hDir : ∀ x ∈ efDir, ∃ d, x = Effect.mkdirE d)
    (h : Effect.saveE sc ∈ (rasterWrite env cfg p orig exifKw efDir).2) :
    sc = mkSaveCall cfg (saveExt cfg p) (resolveOut cfg p) exifKw := by
  unfold rasterWrite at h
  split at h
  · split at h
    · obtain ⟨d, hd⟩ := hDir _ h
      exact absurd hd (by simp)
    · rw [mem_rasterFinish] at h
      rcases h with h | h
      · rcases List.mem_append.mp h with h | h
        · obtain ⟨d, hd⟩ := hDir _ h
          exact absurd hd (by simp)
        · simpa using h
      · obtain ⟨t, ht⟩ := mem_optimizeExternal env _ _ h
        exact absurd ht (by simp)
  · split at h
    · rw [mem_rasterFinish] at h
      rcases h with h | h
      · obtain ⟨d, hd⟩ := hDir _ h
        exact absurd hd (by simp)
      · obtain ⟨t, ht⟩ := mem_optimizeExternal env _ _ h
        exact absurd ht (by simp)
    · split at h
      · obtain ⟨d, hd⟩ := hDir _ h
        exact absurd hd (by simp)
      · rw [mem_rasterFinish] at h
        rcases h with h | h
        · rcases List.mem_append.mp h with h | h
          · obtain ⟨d, hd⟩ := hDir _ h
            exact absurd hd (by simp)
          · simp at h
        · obtain ⟨t, ht⟩ := mem_optimizeExternal env _ _ h
          exact absurd ht (by simp)

/-- The SVG branch never performs a PIL save. -/
theorem svg_no_save (env : Env) (cfg : Cfg) (p : FPath) (orig : Nat) (sc : SaveCall) :
    Effect.saveE sc ∉ (processSvg env cfg p orig).2 := by
  intro h
  unfold processSvg svgCopy svgFinish at h
  repeat' split at h
  all_goals simp at h

/-- Any save call recorded by `process_file` is the one built by
`mkSaveCall` for the resolved output extension and path (for some value
of the exif kwarg flag). -/
theorem save_mem_processFile {env : Env} {cfg : Cfg} {p : FPath} {sc : SaveCall}
    (h : Effect.saveE sc ∈ (processFile env cfg p).2) :
    ∃ k, sc = mkSaveCall cfg (saveExt cfg p) (resolveOut cfg p) k := by
  unfold processFile at h
  split at h
  · split at h
    · exact absurd h (svg_no_save env cfg p _ sc)
    · split at h
      · simp at h
      · unfold processRaster at h
        split at h
        · exact ⟨_, save_mem_rasterWrite (by simp) h⟩
        · split at h
          · simp at h
          · refine ⟨_, save_mem_rasterWrite ?_ h⟩
            simp
  · simp at h

/-- `needs_pil_save` as a proposition (lines 143-145). -/
theorem needsPilSave_iff (env : Env) (cfg : Cfg) (p : FPath) :
    needsPilSave env cfg p = true ↔
      (cfg.max_size ≠ none ∨
       (∃ t, cfg.target_format = some t ∧ t ≠ strLower p.ext) ∨
       (env.filePresent (resolveOut cfg p) = false ∧ resolveOut cfg p ≠ p)) := by
  unfold needsPilSave
  cases hms : cfg.max_size <;> cases htf : cfg.target_format <;>
    simp [hms, htf, bne]

/-- For a successful run, the effect trace of `rasterWrite` in each of
its three outcomes (re-encode / copy / no write). -/
theorem rasterWrite_trace (env : Env) (cfg : Cfg) (p : FPath) (orig : Nat)
    (ek : Bool) (efDir : List Effect)
    (hs : (rasterWrite env cfg p orig ek efDir).1.success = true) :
    (needsPilSave env cfg p = true ∧
      (rasterWrite env cfg p orig ek efDir).2 =
        (efDir ++ [Effect.saveE (mkSaveCall cfg (saveExt cfg p) (resolveOut cfg p) ek)]) ++
          optimizeExternal env (resolveOut cfg p)) ∨
    (needsPilSave env cfg p = false ∧ resolveOut cfg p ≠ p ∧
      (rasterWrite env cfg p orig ek efDir).2 =
        (efDir ++ [Effect.copyE p (resolveOut cfg p)]) ++
          optimizeExternal env (resolveOut cfg p)) ∨
    (needsPilSave env cfg p = false ∧ resolveOut cfg p = p ∧
      (rasterWrite env cfg p orig ek efDir).2 =
        efDir ++ optimizeExternal env (resolveOut cfg p)) := by
  by_cases hn : needsPilSave env cfg p = true
  · rw [rasterWrite, if_pos hn] at hs ⊢
    cases hse : env.saveErr (resolveOut cfg p) with
    | some e => rw [hse] at hs; simp [failR] at hs
    | none => exact Or.inl ⟨hn, rfl⟩
  · have hn' : needsPilSave env cfg p = false := by simpa using hn
    rw [rasterWrite, if_neg hn] at hs ⊢
    by_cases ho : resolveOut cfg p = p
    · rw [if_pos ho] at hs ⊢
      exact Or.inr (Or.inr ⟨hn', ho, rfl⟩)
    · rw [if_neg ho] at hs ⊢
      cases hce : env.copyErr p (resolveOut cfg p) with
      | some e => rw [hce] at hs; simp [failR] at hs
      | none => exact Or.inr (Or.inl ⟨hn', ho, rfl⟩)

/-- The write decision, settled for any run that reports success:
a save happens iff `needs_pil_save`; a copy happens iff no save is
needed and the output path differs from the input. -/
theorem rasterWrite_cases (env : Env) (cfg : Cfg) (p : FPath) (orig : Nat)
    (ek : Bool) (efDir : List Effect)
    (hDir : ∀ x ∈ efDir, ∃ d, x = Effect.mkdirE d)
    (hs : (rasterWrite env cfg p orig ek efDir).1.success = true) :
    ((∃ sc, Effect.saveE sc ∈ (rasterWrite env cfg p orig ek efDir).2) ↔
      needsPilSave env cfg p = true) ∧
    ((∃ a b, Effect.copyE a b ∈ (rasterWrite env cfg p orig ek efDir).2) ↔
      (needsPilSave env cfg p = false ∧ resolveOut cfg p ≠ p)) := by
  have noSave : ∀ x ∈ efDir ++ optimizeExternal env (resolveOut cfg p),
      (∀ sc, x ≠ Effect.saveE sc) ∧ ∀ a b, x ≠ Effect.copyE a b := by
    intro x hx
    rcases List.mem_append.mp hx with hx | hx
    · obtain ⟨d, hd⟩ := hDir _ hx
      subst hd
      exact ⟨fun sc => by simp, fun a b => by simp⟩
    · obtain ⟨t, ht⟩ := mem_optimizeExternal env _ _ hx
      subst ht
      exact ⟨fun sc => by simp, fun a b => by simp⟩
  rcases rasterWrite_trace env cfg p orig ek efDir hs with
    ⟨hn, htr⟩ | ⟨hn, ho, htr⟩ | ⟨hn, ho, htr⟩
  · rw [htr]
    constructor
    · constructor
      · intro _
        exact hn
      · intro _
        exact ⟨mkSaveCall cfg (saveExt cfg p) (resolveOut cfg p) ek,
          List.mem_append.mpr (Or.inl (List.mem_append.mpr (Or.inr (by simp))))⟩
    · constructor
      · rintro ⟨a, b, hab⟩
        rcases List.mem_append.mp hab with hab | hab
        · rcases List.mem_append.mp hab with hab | hab
          · obtain ⟨d, hd⟩ := hDir _ hab
            simp at hd
          · simp at hab
        · obtain ⟨t, ht⟩ := mem_optimizeExternal env _ _ hab
          simp at ht
      · rintro ⟨hfalse, -⟩
        exact absurd (hn.symm.trans hfalse) (by simp)
  · rw [htr]
    constructor
    · constructor
      · rintro ⟨sc, hsc⟩
        rcases List.mem_append.mp hsc with hsc | hsc
        · rcases List.mem_append.mp hsc with hsc | hsc
          · obtain ⟨d, hd⟩ := hDir _ hsc
            simp at hd
          · simp at hsc
        · obtain ⟨t, ht⟩ := mem_optimizeExternal env _ _ hsc
          simp at ht
      · intro hcontra
        exact absurd (hn.symm.trans hcontra) (by simp)
    · constructor
      · intro _
        exact ⟨hn, ho⟩
      · intro _
        exact ⟨p, resolveOut cfg p,
          List.mem_append.mpr (Or.inl (List.mem_append.mpr (Or.inr (by simp))))⟩
  · rw [htr]
    constructor
    · constructor
      · rintro ⟨sc, hsc⟩
        exact absurd rfl ((noSave _ hsc).1 sc)
      · intro hcontra
        exact absurd (hn.symm.trans hcontra) (by simp)
    · constructor
      · rintro ⟨a, b, hab⟩
        exact absurd rfl ((noSave _ hab).2 a b)
      · rintro ⟨-, hne⟩
        exact absurd ho hne

/-- A successful non-SVG `process_file` run is a `rasterWrite` whose
directory effects are all mkdirs. -/
theorem processFile_eq_rasterWrite (env : Env) (cfg : Cfg) (p : FPath)
    (hs : (processFile env cfg p).1.success = true)
    (hsvg : strLower p.ext ≠ "svg") :
    ∃ ek efDir, (∀ x ∈ efDir, ∃ d, x = Effect.mkdirE d) ∧
      processFile env cfg p = rasterWrite env cfg p (env.size p) ek efDir := by
  by_cases hp : env.filePresent p = true
  · cases hd : env.decode p with
    | error e =>
      have hred : processFile env cfg p =
          (failR p (env.size p) ("Cannot load image " ++ p.name ++ ": " ++ e), []) := by
        unfold processFile
        rw [if_pos hp, if_neg hsvg, hd]
      rw [hred] at hs
      simp [failR] at hs
    | ok img =>
      have hred : processFile env cfg p = processRaster env cfg p (env.size p) img := by
        unfold processFile
        rw [if_pos hp, if_neg hsvg, hd]
      cases hmk : mkdirNeeded cfg p with
      | none =>
        have h2 : processRaster env cfg p (env.size p) img =
            rasterWrite env cfg p (env.size p) (exifKwOf env cfg img) [] := by
          unfold processRaster
          rw [hmk]
        exact ⟨exifKwOf env cfg img, [], by simp, hred.trans h2⟩
      | some d =>
        cases hme : env.mkdirErr d with
        | some e =>
          have h2 : processRaster env cfg p (env.size p) img =
              (failR p (env.size p) e, []) := by
            unfold processRaster
            simp only [hmk, hme]
          rw [hred, h2] at hs
          simp [failR] at hs
        | none =>
          have h2 : processRaster env cfg p (env.size p) img =
              rasterWrite env cfg p (env.size p) (exifKwOf env cfg img)
                [.mkdirE d] := by
            unfold processRaster
            simp only [hmk, hme]
          exact ⟨exifKwOf env cfg img, [.mkdirE d], by simp, hred.trans h2⟩
  · have hred : processFile env cfg p = (failR p 0 ("File not found: " ++ p.str), []) := by
      unfold processFile
      rw [if_neg hp]
    rw [hred] at hs
    simp [failR] at hs

/-- C2 counterexample: `d/a.jpg` (10x10, decodable, existing), processed
with overwrite and bound 1000: no resize occurs (10 <= 1000), the output
path equals the input path and exists, no format change — the claim says
no write at all — yet `process_file` performs a full re-encode, because
`needs_pil_save` tests `max_size is not None`, not whether a resize
actually happened. -/
theorem C2_counterexample :
    (resizeApply cfgBound.max_size 10 10).2 = none ∧
    resolveOut cfgBound pA = pA ∧
    envBase.filePresent pA = true ∧
    (processFile envBase cfgBound pA).2 =
      [Effect.saveE ⟨pA, some 85, true, none, false, true⟩] := by
  refine ⟨?_, by decide, rfl, by decide⟩
  rw [show cfgBound.max_size = some 1000 from rfl,
    resizeApply_of_le 1000 10 10 (by decide)]

/-- C2 (amended): for every successful non-SVG run, a full re-encode
(PIL save) happens iff a maximum size is configured (whether or not a
resize actually occurred), or the target format differs from the
current extension, or the resolved output path does not exist and
differs from the input path; a byte-for-byte copy happens iff no
re-encode is needed and the output path differs from the input path;
hence neither happens when no re-encode is needed and the output path
equals the input path. -/
theorem C2_write_decision (env : Env) (cfg : Cfg) (p : FPath)
    (hs : (processFile env cfg p).1.success = true)
    (hsvg : strLower p.ext ≠ "svg") :
    ((∃ sc, Effect.saveE sc ∈ (processFile env cfg p).2) ↔
      (cfg.max_size ≠ none ∨
       (∃ t, cfg.target_format = some t ∧ t ≠ strLower p.ext) ∨
       (env.filePresent (resolveOut cfg p) = false ∧ resolveOut cfg p ≠ p))) ∧
    ((∃ a b, Effect.copyE a b ∈ (processFile env cfg p).2) ↔
      (needsPilSave env cfg p = false ∧ resolveOut cfg p ≠ p)) := by
  obtain ⟨ek, efDir, hDir, heq⟩ := processFile_eq_rasterWrite env cfg p hs hsvg
  rw [heq] at hs ⊢
  have := rasterWrite_cases env cfg p (env.size p) ek efDir hDir hs
  exact ⟨this.1.trans (needsPilSave_iff env cfg p), this.2⟩

/-- C2 witness: the amended decision evaluated on the counterexample
configuration: a save is present, and indeed a bound is configured. -/
theorem C2_write_decision_witness :
    (∃ sc, Effect.saveE sc ∈ (processFile envBase cfgBound pA).2) :=
  (C2_write_decision envBase cfgBound pA (by decide) (by decide)).1.mpr
    (Or.inl (by decide))

/-- C9: every PIL save performed by `process_file` uses the parameters
the resolved output extension dictates: JPEG converts to RGB and passes
the configured quality with optimize on; PNG passes optimize without
quality; WebP passes the configured quality with method 6; anything else
saves with defaults. -/
theorem C9_save_params (env : Env) (cfg : Cfg) (p : FPath) (sc : SaveCall)
    (h : Effect.saveE sc ∈ (processFile env cfg p).2) :
    sc.target = resolveOut cfg p ∧
    ((saveExt cfg p = "jpg" ∨ saveExt cfg p = "jpeg") →
      sc.convertedRGB = true ∧ sc.qualityArg = some cfg.quality ∧
      sc.optimizeFlag = true ∧ sc.methodArg = none) ∧
    (saveExt cfg p = "png" →
      sc.convertedRGB = false ∧ sc.qualityArg = none ∧
      sc.optimizeFlag = true ∧ sc.methodArg = none) ∧
    (saveExt cfg p = "webp" →
      sc.convertedRGB = false ∧ sc.qualityArg = some cfg.quality ∧
      sc.optimizeFlag = false ∧ sc.methodArg = some 6) ∧
    (saveExt cfg p ≠ "jpg" → saveExt cfg p ≠ "jpeg" → saveExt cfg p ≠ "png" →
      saveExt cfg p ≠ "webp" →
      sc.convertedRGB = false ∧ sc.qualityArg = none ∧
      sc.optimizeFlag = false ∧ sc.methodArg = none) := by
  obtain ⟨k, rfl⟩ := save_mem_processFile h
  unfold mkSaveCall
  split_ifs with h1 h2 h3
  · refine ⟨rfl, fun _ => ⟨rfl, rfl, rfl, rfl⟩, ?_, ?_, ?_⟩
    · intro hpng
      rw [hpng] at h1
      rcases h1 with h1 | h1 <;> simp at h1
    · intro hw
      rw [hw] at h1
      rcases h1 with h1 | h1 <;> simp at h1
    · intro hj hj' _ _
      rcases h1 with h1 | h1
      · exact absurd h1 hj
      · exact absurd h1 hj'
  · refine ⟨rfl, ?_, fun _ => ⟨rfl, rfl, rfl, rfl⟩, ?_, ?_⟩
    · intro hj
      exact absurd hj h1
    · intro hw
      rw [hw] at h2
      simp at h2
    · intro _ _ hp _
      exact absurd h2 hp
  · refine ⟨rfl, ?_, ?_, fun _ => ⟨rfl, rfl, rfl, rfl⟩, ?_⟩
    · intro hj
      exact absurd hj h1
    · intro hpng
      exact absurd hpng h2
    · intro _ _ _ hw
      exact absurd h3 hw
  · refine ⟨rfl, ?_, ?_, ?_, fun _ _ _ _ => ⟨rfl, rfl, rfl, rfl⟩⟩
    · intro hj
      exact absurd hj h1
    · intro hpng
      exact absurd hpng h2
    · intro hw
      exact absurd hw h3

/-- C9 witness: the save recorded in the counterexample run of C2 (a
JPEG target) indeed converted to RGB with quality 85, optimize on. -/
theorem C9_save_params_witness :
    Effect.saveE ⟨pA, some 85, true, none, false, true⟩ ∈
      (processFile envBase cfgBound pA).2 ∧
    (⟨pA, some 85, true, none, false, true⟩ : SaveCall).convertedRGB = true := by
  have hmem : Effect.saveE ⟨pA, some 85, true, none, false, true⟩ ∈
      (processFile envBase cfgBound pA).2 := by decide
  exact ⟨hmem,
    ((C9_save_params envBase cfgBound pA _ hmem).2.1 (Or.inl (by decide))).1⟩

/-! ## The Qt batch coordinator: submission, delivery, accumulation -/

/-- The submit loop only ever submits a prefix of the input list. -/
theorem qtSubmit_front (ca : Option Nat) :
    ∀ (files : List RFields) (k : Nat), (qtSubmit ca files k).1 <+: files := by
  intro files
  induction files with
  | nil => intro k; simp [qtSubmit]
  | cons r rs ih =>
    intro k
    by_cases h : cRead ca k = true
    · simp [qtSubmit, h]
    · simp only [qtSubmit, h, if_false, Bool.false_eq_true]
      exact List.cons_prefix_cons.mpr ⟨rfl, ih (k + 1)⟩

/-- Once the flag becomes visible at read `t`, no submission uses a read
index at or past `t`: starting from read index `k ≤ t`, at most `t - k`
files are submitted. -/
theorem qtSubmit_len (t : Nat) :
    ∀ (files : List RFields) (k : Nat), k ≤ t →
      k + (qtSubmit (some t) files k).1.length ≤ t := by
  intro files
  induction files with
  | nil => intro k hk; simpa [qtSubmit] using hk
  | cons r rs ih =>
    intro k hk
    by_cases hc : t ≤ k
    · have hck : cRead (some t) k = true := by simp [cRead, hc]
      simp [qtSubmit, hck]
      omega
    · have hck : cRead (some t) k = false := by simp [cRead, hc]
      simp only [qtSubmit, hck, Bool.false_eq_true, if_false, List.length_cons]
      have := ih (k + 1) (by omega)
      omega

/-- With no cancellation, everything is submitted, one read per file,
and no cancellation log is emitted. -/
theorem qtSubmit_none :
    ∀ (files : List RFields) (k : Nat),
      qtSubmit none files k = (files, k + files.length, []) := by
  intro files
  induction files with
  | nil => intro k; simp [qtSubmit]
  | cons r rs ih =>
    intro k
    have hck : cRead none k = false := rfl
    simp only [qtSubmit, hck, Bool.false_eq_true, if_false, ih (k + 1),
      List.length_cons, Prod.mk.injEq]
    exact ⟨trivial, by omega, trivial⟩

/-- The submit loop emits no progress events. -/
theorem qtSubmit_no_progress (ca : Option Nat) :
    ∀ (files : List RFields) (k : Nat),
      progressOf (qtSubmit ca files k).2.2 = [] := by
  intro files
  induction files with
  | nil => intro k; simp [qtSubmit, progressOf]
  | cons r rs ih =>
    intro k
    by_cases h : cRead ca k = true
    · simp [qtSubmit, h, progressOf]
    · simp only [qtSubmit, h, Bool.false_eq_true, if_false]
      exact ih (k + 1)

/-- The collection loop delivers a prefix of the submitted futures. -/
theorem qtCollect_front (ca : Option Nat) (total : Nat) :
    ∀ (rs : List RFields) (k c s : Nat),
      (qtCollect ca total rs k c s).2.1 <+: rs := by
  intro rs
  induction rs with
  | nil => intro k c s; simp [qtCollect]
  | cons r rest ih =>
    intro k c s
    by_cases h : cRead ca k = true
    · simp [qtCollect, h]
    · simp only [qtCollect, h, Bool.false_eq_true, if_false]
      exact List.cons_prefix_cons.mpr ⟨rfl, ih (k + 1) (c + 1) (s + qtSaveDelta r)⟩

/-- With no cancellation the collection loop delivers everything. -/
theorem qtCollect_none (total : Nat) :
    ∀ (rs : List RFields) (k c s : Nat),
      (qtCollect none total rs k c s).2.1 = rs := by
  intro rs
  induction rs with
  | nil => intro k c s; simp [qtCollect]
  | cons r rest ih =>
    intro k c s
    have hck : cRead none k = false := rfl
    simp only [qtCollect, hck, Bool.false_eq_true, if_false]
    exact congrArg (r :: ·) (ih (k + 1) (c + 1) (s + qtSaveDelta r))

/-- The collection loop's progress events count the delivered results
`c+1, c+2, ...`, each paired with the fixed total. -/
theorem qtCollect_progress (ca : Option Nat) (total : Nat) :
    ∀ (rs : List RFields) (k c s : Nat),
      progressOf (qtCollect ca total rs k c s).1 =
        (List.range (qtCollect ca total rs k c s).2.1.length).map
          (fun i => (c + i + 1, total)) := by
  intro rs
  induction rs with
  | nil => intro k c s; simp [qtCollect, progressOf]
  | cons r rest ih =>
    intro k c s
    by_cases h : cRead ca k = true
    · simp [qtCollect, h, progressOf]
    · simp only [qtCollect, h, Bool.false_eq_true, if_false, List.length_cons]
      have hev : progressOf
          (([QtEvent.progressE (c + 1) total,
             QtEvent.logE r.message (if r.success = true then "success" else "error")] ++
            (if qtSaveDelta r ≠ 0 then [QtEvent.savedE (qtSaveDelta r)] else [])) ++
           (qtCollect ca total rest (k + 1) (c + 1) (s + qtSaveDelta r)).1) =
          (c + 1, total) ::
            progressOf (qtCollect ca total rest (k + 1) (c + 1) (s + qtSaveDelta r)).1 := by
        by_cases hd : qtSaveDelta r ≠ 0 <;>
          simp [progressOf, hd, List.filterMap_append]
      rw [hev, ih (k + 1) (c + 1) (s + qtSaveDelta r),
        List.range_succ_eq_map, List.map_cons, List.map_map]
      refine congrArg₂ _ (by simp) ?_
      refine List.map_congr_left fun a _ => ?_
      simp [Function.comp]
      omega

/-- The collection loop's final `total_saved` is the starting value plus
the per-result contributions of everything it delivered. -/
theorem qtCollect_saved (ca : Option Nat) (total : Nat) :
    ∀ (rs : List RFields) (k c s : Nat),
      (qtCollect ca total rs k c s).2.2 =
        s + ((qtCollect ca total rs k c s).2.1.map qtSaveDelta).sum := by
  intro rs
  induction rs with
  | nil => intro k c s; simp [qtCollect]
  | cons r rest ih =>
    intro k c s
    by_cases h : cRead ca k = true
    · simp [qtCollect, h]
    · simp only [qtCollect, h, Bool.false_eq_true, if_false, List.map_cons,
        List.sum_cons]
      rw [ih (k + 1) (c + 1) (s + qtSaveDelta r)]
      omega

/-- Projection: the submitted list of a run. -/
theorem qtRun_submitted (ca : Option Nat) (files : List RFields) :
    (qtRun ca files).submitted = (qtSubmit ca files 0).1 := rfl

/-- Projection: the delivered list of a run. -/
theorem qtRun_delivered (ca : Option Nat) (files : List RFields) :
    (qtRun ca files).delivered =
      (qtCollect ca files.length (qtSubmit ca files 0).1
        (qtSubmit ca files 0).2.1 0 0).2.1 := rfl

/-- Projection: the events of a run. -/
theorem qtRun_events (ca : Option Nat) (files : List RFields) :
    (qtRun ca files).events =
      (qtSubmit ca files 0).2.2 ++
        (qtCollect ca files.length (qtSubmit ca files 0).1
          (qtSubmit ca files 0).2.1 0 0).1 ++ [QtEvent.finishedE] := rfl

/-- Projection: the accumulated savings of a run. -/
theorem qtRun_saved (ca : Option Nat) (files : List RFields) :
    (qtRun ca files).saved =
      (qtCollect ca files.length (qtSubmit ca files 0).1
        (qtSubmit ca files 0).2.1 0 0).2.2 := rfl

/-- C3 counterexample: two files, flag read true from the 4th read on
(so: both submitted, first result collected, then the collection loop
observes the flag and breaks).  `rB` was submitted before the flag was
ever observed, yet its result is never delivered — the worker's result
loop `if self.cancelled: break` (line 122-123) drops it. -/
theorem C3_counterexample :
    (qtRun (some 3) [rA, rB]).submitted = [rA, rB] ∧
    (qtRun (some 3) [rA, rB]).delivered = [rA] ∧
    rB ∉ (qtRun (some 3) [rA, rB]).delivered := by
  refine ⟨by decide, by decide, by decide⟩

/-- C3 (amended): submissions form a prefix of the input list and stop
as soon as the flag is visible (at most `t` files are submitted when the
flag becomes visible at read `t`); delivered results form a prefix of
the submitted list, so no result is delivered twice; but results of
already-submitted files after the flag is observed in the collection
loop are dropped — only when the flag is never set is every submitted
file's result delivered exactly once. -/
theorem C3_cancellation (cancelAt : Option Nat) (files : List RFields) :
    (qtRun cancelAt files).submitted <+: files ∧
    (∀ j, cancelAt = some j → (qtRun cancelAt files).submitted.length ≤ j) ∧
    (qtRun cancelAt files).delivered <+: (qtRun cancelAt files).submitted ∧
    (cancelAt = none →
      (qtRun cancelAt files).submitted = files ∧
      (qtRun cancelAt files).delivered = files) := by
  rw [qtRun_submitted, qtRun_delivered]
  refine ⟨qtSubmit_front cancelAt files 0, ?_, qtCollect_front _ _ _ _ _ _, ?_⟩
  · intro j hj
    subst hj
    simpa using qtSubmit_len j files 0 (Nat.zero_le j)
  · intro h
    subst h
    have hsub : (qtSubmit none files 0).1 = files := by rw [qtSubmit_none]
    exact ⟨hsub, by rw [qtCollect_none, hsub]⟩

/-- C3 witness: with the flag visible from the very first read, nothing
is submitted. -/
theorem C3_witness :
    (qtRun (some 0) [rA, rB]).submitted.length ≤ 0 :=
  (C3_cancellation (some 0) [rA, rB]).2.1 0 rfl

/-- C4 counterexample: the Tk GUI's accumulator (`_check_queue`,
image_optimizer_gui.py lines 373-374) adds `original_size - new_size`
for every successful result with no positivity check, so one successful
result whose output grew from 10 to 20 bytes drives the running total
from 0 down to -10: the accumulated total decreases, and the result did
not contribute zero. -/
theorem C4_counterexample :
    tkAccum [] = 0 ∧ tkAccum [rGrew] = -10 ∧ tkAccum [rGrew] < tkAccum [] := by
  refine ⟨by decide, by decide, by decide⟩

/-- C4 (amended): in the Qt worker the accumulated savings equal the sum
of per-result contributions, where a result contributes
`original_size - new_size` only when it succeeded, both sizes are
nonzero and the delta is strictly positive (and zero otherwise), so the
running total never decreases as results are delivered; the Tk GUI's
consumer instead adds the raw signed delta of every successful result,
including negative ones. -/
theorem C4_savings :
    (∀ cancelAt files, (qtRun cancelAt files).saved =
        ((qtRun cancelAt files).delivered.map qtSaveDelta).sum) ∧
    (∀ l₁ l₂ : List RFields,
      (l₁.map qtSaveDelta).sum ≤ ((l₁ ++ l₂).map qtSaveDelta).sum) ∧
    (∀ rs r, tkAccum (rs ++ [r]) =
      tkAccum rs +
        (if r.success then (r.original_size : Int) - (r.new_size : Int) else 0)) := by
  refine ⟨?_, ?_, ?_⟩
  · intro ca files
    rw [qtRun_saved, qtRun_delivered, qtCollect_saved]
    omega
  · intro l₁ l₂
    simp only [List.map_append, List.sum_append]
    exact Nat.le_add_right _ _
  · intro rs r
    simp only [tkAccum, List.foldl_append, List.foldl_cons, List.foldl_nil]
    split <;> simp

/-- C4 witness: the Qt accumulation identity on a concrete run. -/
theorem C4_witness :
    (qtRun none [rA, rB]).saved =
      ((qtRun none [rA, rB]).delivered.map qtSaveDelta).sum :=
  C4_savings.1 none [rA, rB]

/-- C6 counterexample: with the flag visible from the 4th read, the
terminal `finished` signal is still emitted although only 1 of the 2
submitted files was accounted for; and with no cancellation the results
are delivered in submission order `[rA, rB]`, not in the completion
order `[rB, rA]` that a 2-worker pool can realize (the worker iterates
`for future in futures`, blocking on each in submission order). -/
theorem C6_counterexample :
    ((qtRun (some 3) [rA, rB]).events.getLast? = some QtEvent.finishedE ∧
     (qtRun (some 3) [rA, rB]).delivered.length = 1 ∧
     (qtRun (some 3) [rA, rB]).submitted.length = 2) ∧
    ((qtRun none [rA, rB]).delivered = [rA, rB] ∧
     List.Perm [rB, rA] [rA, rB] ∧
     (qtRun none [rA, rB]).delivered ≠ [rB, rA]) := by
  refine ⟨⟨by decide, by decide, by decide⟩, by decide, by decide, by decide⟩

/-- C6 (amended): results are delivered in submission order (the
delivered list is a prefix of the submitted list, which is a prefix of
the input); the progress updates are exactly `(1, total), ..., (n,
total)` for the `n` delivered results — monotonically increasing and
bounded by the total — and the terminal `finished` signal is always the
last event, even when cancellation drops the remaining submitted
results. -/
theorem C6_delivery (cancelAt : Option Nat) (files : List RFields) :
    progressOf (qtRun cancelAt files).events =
      (List.range (qtRun cancelAt files).delivered.length).map
        (fun i => (i + 1, files.length)) ∧
    (qtRun cancelAt files).delivered.length ≤ files.length ∧
    (qtRun cancelAt files).delivered <+: (qtRun cancelAt files).submitted ∧
    (qtRun cancelAt files).events.getLast? = some QtEvent.finishedE := by
  refine ⟨?_, ?_, ?_, ?_⟩
  · rw [qtRun_events, qtRun_delivered]
    simp only [progressOf, List.filterMap_append]
    rw [show List.filterMap _ (qtSubmit cancelAt files 0).2.2 =
        progressOf (qtSubmit cancelAt files 0).2.2 from rfl,
      qtSubmit_no_progress]
    rw [show List.filterMap _ (qtCollect cancelAt files.length
          (qtSubmit cancelAt files 0).1 (qtSubmit cancelAt files 0).2.1 0 0).1 =
        progressOf (qtCollect cancelAt files.length
          (qtSubmit cancelAt files 0).1 (qtSubmit cancelAt files 0).2.1 0 0).1 from rfl,
      qtCollect_progress]
    simp [progressOf]
  · rw [qtRun_delivered]
    calc (qtCollect cancelAt files.length (qtSubmit cancelAt files 0).1
            (qtSubmit cancelAt files 0).2.1 0 0).2.1.length
        ≤ (qtSubmit cancelAt files 0).1.length :=
          (qtCollect_front _ _ _ _ _ _).length_le
      _ ≤ files.length := (qtSubmit_front cancelAt files 0).length_le
  · rw [qtRun_delivered, qtRun_submitted]
    exact qtCollect_front _ _ _ _ _ _
  · rw [qtRun_events, List.append_assoc, ← List.append_assoc]
    exact List.getLast?_concat _

/-- C6 witness: the delivery invariants on a concrete cancelled run. -/
theorem C6_witness :
    progressOf (qtRun (some 3) [rA, rB]).events =
      (List.range (qtRun (some 3) [rA, rB]).delivered.length).map
        (fun i => (i + 1, 2)) ∧
    (qtRun (some 3) [rA, rB]).events.getLast? = some QtEvent.finishedE :=
  ⟨(C6_delivery (some 3) [rA, rB]).1, (C6_delivery (some 3) [rA, rB]).2.2.2⟩

end TerryOptImg
